import Mathlib

/-!
Verification of the Sweet Somnum visual-novel front end (src/index.tsx).

The development shallowly embeds the progress store (loadGameState and
saveGameState over a JSON-encoded record kept under one fixed storage key),
the chapter unlock gate, and the navigation state machine of the App
component, together with the chapter-select tooltip timers.

JavaScript values that can occur in this program (results of JSON.parse,
the game-state record, property accesses) are modelled by the inductive
type JsonValue; machine numbers are modelled by Int, which is exact for
every integer this program manipulates.  Persistent storage is modelled as
the optional string stored under the single key somnumGameState.
-/

namespace Somnum

/-- Model of a JavaScript value as this program can observe one: the
results of JSON.parse, plus undefined, which property access on a
non-object or a missing key yields. -/
inductive JsonValue where
  | null
  | jsUndefined
  | bool (b : Bool)
  | num (n : Int)
  | str (s : String)
  | arr (elems : List JsonValue)
  | obj (fields : List (String × JsonValue))
deriving Repr

/-- JSON whitespace recognizer, as JSON.parse skips it. -/
def isWs (c : Char) : Bool :=
  c = ' ' || c = '\n' || c = '\t' || c = '\r'

/-- Drop leading JSON whitespace. -/
def skipWs : List Char → List Char
  | [] => []
  | c :: r => if isWs c then skipWs r else c :: r

/-- Decimal digit recognizer. -/
def isDigitCh (c : Char) : Bool :=
  '0' ≤ c && c ≤ '9'

/-- Numeric value of a decimal digit character. -/
def digitVal (c : Char) : Nat := c.toNat - 48

/-- Character for a decimal digit value below ten. -/
def digitCh : Nat → Char
  | 0 => '0' | 1 => '1' | 2 => '2' | 3 => '3' | 4 => '4'
  | 5 => '5' | 6 => '6' | 7 => '7' | 8 => '8' | _ => '9'

/-- Greedily consume decimal digits, folding them onto an accumulator,
returning the value and the unconsumed remainder. -/
def parseNatAux : List Char → Nat → Nat × List Char
  | [], acc => (acc, [])
  | c :: r, acc =>
    if isDigitCh c then parseNatAux r (acc * 10 + digitVal c)
    else (acc, c :: r)

/-- Parse a JSON integer (optional minus sign, then at least one digit).
Fractional and exponent forms never occur in this program's data and are
not modelled. -/
def parseNumber : List Char → Option (Int × List Char)
  | [] => none
  | c :: r =>
    if c = '-' then
      match r with
      | [] => none
      | c2 :: _ =>
        if isDigitCh c2 then
          let p := parseNatAux r 0
          some (-(p.1 : Int), p.2)
        else none
    else if isDigitCh c then
      let p := parseNatAux (c :: r) 0
      some ((p.1 : Int), p.2)
    else none

/-- Unescape a character that followed a backslash inside a JSON string.
Unicode escapes never occur in this program's data and are not modelled. -/
def escChar (c : Char) : Char :=
  if c = 'n' then '\n'
  else if c = 't' then '\t'
  else if c = 'r' then '\r'
  else c

mutual

/-- Consume the body of a JSON string after its opening quote, up to and
including the closing quote; returns the content and the remainder. -/
def parseStringAux : List Char → Option (List Char × List Char)
  | [] => none
  | c :: r =>
    if c = '"' then some ([], r)
    else if c = '\\' then parseStringEsc r
    else
      match parseStringAux r with
      | none => none
      | some (s, rest) => some (c :: s, rest)

/-- Consume the character after a backslash inside a JSON string, then the
rest of the string body. -/
def parseStringEsc : List Char → Option (List Char × List Char)
  | [] => none
  | e :: r2 =>
    match parseStringAux r2 with
    | none => none
    | some (s, rest) => some (escChar e :: s, rest)

end

/-- Match a literal keyword character list as a required prefix. -/
def stripChars : List Char → List Char → Option (List Char)
  | [], l => some l
  | _ :: _, [] => none
  | p :: ps, c :: cs => if c = p then stripChars ps cs else none

/-- Insert a key-value pair into an assoc list with JavaScript object
semantics: an existing key keeps its position and its value is replaced,
a new key is appended.  JSON.parse uses this for duplicate keys, and the
object spread update in navigateToGame behaves the same way. -/
def insertPair : List (String × JsonValue) → String → JsonValue → List (String × JsonValue)
  | [], k, v => [(k, v)]
  | (k0, v0) :: rest, k, v =>
    if k0 = k then (k, v) :: rest
    else (k0, v0) :: insertPair rest k v

mutual

/-- Recursive-descent JSON value parser with a fuel argument bounding the
recursion depth; jsonParse supplies more fuel than any input can consume. -/
def parseValue : Nat → List Char → Option (JsonValue × List Char)
  | 0, _ => none
  | fuel + 1, l =>
    match skipWs l with
    | [] => none
    | c :: r =>
      if c = '\x7b' then
        match skipWs r with
        | '\x7d' :: r2 => some (.obj [], r2)
        | r2 => parseMembers fuel r2 []
      else if c = '[' then
        match skipWs r with
        | ']' :: r2 => some (.arr [], r2)
        | r2 => parseElems fuel r2 []
      else if c = '"' then
        match parseStringAux r with
        | none => none
        | some (s, rest) => some (.str (String.mk s), rest)
      else if isDigitCh c || c = '-' then
        match parseNumber (c :: r) with
        | none => none
        | some (n, rest) => some (.num n, rest)
      else
        match stripChars "null".data (c :: r) with
        | some rest => some (.null, rest)
        | none =>
          match stripChars "true".data (c :: r) with
          | some rest => some (.bool true, rest)
          | none =>
            match stripChars "false".data (c :: r) with
            | some rest => some (.bool false, rest)
            | none => none

/-- Parse the members of a nonempty JSON object, positioned at a key. -/
def parseMembers : Nat → List Char → List (String × JsonValue) → Option (JsonValue × List Char)
  | 0, _, _ => none
  | fuel + 1, l, acc =>
    match skipWs l with
    | '"' :: r =>
      match parseStringAux r with
      | none => none
      | some (key, r1) =>
        match skipWs r1 with
        | ':' :: r2 =>
          match parseValue fuel r2 with
          | none => none
          | some (v, r3) =>
            let acc2 := insertPair acc (String.mk key) v
            match skipWs r3 with
            | ',' :: r4 => parseMembers fuel r4 acc2
            | '\x7d' :: r4 => some (.obj acc2, r4)
            | _ => none
        | _ => none
    | _ => none

/-- Parse the elements of a nonempty JSON array, positioned at a value. -/
def parseElems : Nat → List Char → List JsonValue → Option (JsonValue × List Char)
  | 0, _, _ => none
  | fuel + 1, l, acc =>
    match parseValue fuel l with
    | none => none
    | some (v, r) =>
      match skipWs r with
      | ',' :: r2 => parseElems fuel r2 (acc ++ [v])
      | ']' :: r2 => some (.arr (acc ++ [v]), r2)
      | _ => none

end

/-- Model of JSON.parse: parse one value and require only whitespace to
remain; any other outcome is the exception JSON.parse throws. -/
def jsonParse (s : String) : Option JsonValue :=
  match parseValue (s.data.length + 1) s.data with
  | some (v, rest) => if skipWs rest = [] then some v else none
  | none => none

/-- Render a natural number in decimal. -/
def natToChars (n : Nat) : List Char :=
  if h : n < 10 then [digitCh n]
  else natToChars (n / 10) ++ [digitCh (n % 10)]
decreasing_by
  exact Nat.div_lt_self (by omega) (by omega)

/-- Render an integer in decimal, as JSON.stringify renders the integral
numbers this program stores. -/
def intToChars (n : Int) : List Char :=
  if n < 0 then '-' :: natToChars n.natAbs else natToChars n.toNat

/-- Escape a JSON string body for output: quote and backslash escapes, as
JSON.stringify produces for the characters this program stores. -/
def escapeChars : List Char → List Char
  | [] => []
  | c :: r =>
    if c = '"' then '\\' :: '"' :: escapeChars r
    else if c = '\\' then '\\' :: '\\' :: escapeChars r
    else c :: escapeChars r

mutual

/-- Model of JSON.stringify, producing the exact byte sequence written to
storage.  A property whose value is undefined is dropped, as
JSON.stringify drops it. -/
def stringifyList : JsonValue → List Char
  | .null => 'n' :: 'u' :: 'l' :: 'l' :: []
  | .jsUndefined => []
  | .bool true => 't' :: 'r' :: 'u' :: 'e' :: []
  | .bool false => 'f' :: 'a' :: 'l' :: 's' :: 'e' :: []
  | .num n => intToChars n
  | .str s => '"' :: (escapeChars s.data ++ ['"'])
  | .arr es => '[' :: (stringifyArr es ++ [']'])
  | .obj fs => '\x7b' :: (stringifyObj fs ++ ['\x7d'])

/-- Comma-separated rendering of array elements. -/
def stringifyArr : List JsonValue → List Char
  | [] => []
  | [v] => stringifyList v
  | v :: vs => stringifyList v ++ ',' :: stringifyArr vs

/-- Comma-separated rendering of object members in insertion order. -/
def stringifyObj : List (String × JsonValue) → List Char
  | [] => []
  | [(k, v)] => '"' :: (escapeChars k.data ++ '"' :: ':' :: stringifyList v)
  | (k, v) :: fs =>
    ('"' :: (escapeChars k.data ++ '"' :: ':' :: stringifyList v)) ++ ',' :: stringifyObj fs

end

/-- String form of JSON.stringify. -/
def jsStringify (v : JsonValue) : String := String.mk (stringifyList v)

/-- Property lookup on the field list of an object: first occurrence, or
undefined when the key is absent. -/
def getFieldD : List (String × JsonValue) → String → JsonValue
  | [], _ => .jsUndefined
  | (k0, v0) :: rest, k => if k0 = k then v0 else getFieldD rest k

/-- JavaScript property access as this program performs it.  On an object
it looks the key up; on any non-object it yields undefined.  The one place
the program may access a property of null (loadGameState), the thrown
TypeError is caught and handled there explicitly. -/
def getProp (v : JsonValue) (k : String) : JsonValue :=
  match v with
  | .obj fs => getFieldD fs k
  | _ => .jsUndefined

/-- JavaScript truthiness of a value of this model.  Zero, the empty
string, null and undefined are falsy; every object and array is truthy. -/
def truthy : JsonValue → Bool
  | .null => false
  | .jsUndefined => false
  | .bool b => b
  | .num n => n ≠ 0
  | .str s => s ≠ ""
  | .arr _ => true
  | .obj _ => true

/-- Fixed storage key of the progress record (src/index.tsx line 20). -/
def GAME_STATE_KEY : String := "somnumGameState"

/-- Default progress record (src/index.tsx lines 27-30), as the object
value the rest of the program observes. -/
def defaultGameState : JsonValue :=
  .obj [("currentChapter", .num 1), ("unlockedChapters", .num 1)]

/-- Model of loadGameState (src/index.tsx lines 32-45).  The argument is
the content of persistent storage under GAME_STATE_KEY, none when the key
is absent.  An empty stored string is falsy and skips the parse; a parse
failure throws and is caught; property access on a parsed null throws and
is caught; on any other non-object both accesses yield undefined, which is
falsy.  Every such path returns the default state. -/
def loadGameState (stored : Option String) : JsonValue :=
  match stored with
  | none => defaultGameState
  | some savedState =>
    if savedState = "" then defaultGameState
    else
      match jsonParse savedState with
      | none => defaultGameState
      | some parsedState =>
        match parsedState with
        | .obj fields =>
          if truthy (getFieldD fields "currentChapter")
              && truthy (getFieldD fields "unlockedChapters") then
            .obj fields
          else defaultGameState
        | _ => defaultGameState

/-- Model of saveGameState (src/index.tsx lines 47-53).  The failWrite
flag models the environment raising a storage error (quota exceeded,
disabled storage) from localStorage.setItem; the catch block only logs, so
the function always returns normally, and on failure the stored content is
the prior one. -/
def saveGameState (failWrite : Bool) (state : JsonValue) (store : Option String) : Option String :=
  if failWrite then store
  else some (jsStringify state)

/-- Chapter unlock gate (src/index.tsx line 170): a chapter is locked
exactly when its number exceeds the unlocked count. -/
def isLocked (chapterNumber unlockedChapters : Int) : Bool :=
  chapterNumber > unlockedChapters

/-- Trim surrounding whitespace, as JavaScript number coercion of a string
does before reading the digits. -/
def trimChars (l : List Char) : List Char :=
  ((l.dropWhile isWs).reverse.dropWhile isWs).reverse

/-- JavaScript ToNumber on a string: empty or all-whitespace is zero, an
integer literal is its value, anything else is NaN (modelled as none).
Fractional, hexadecimal and exponent literals never occur in this
program's data and are not modelled. -/
def strToNumber (s : String) : Option Int :=
  match trimChars s.data with
  | [] => some 0
  | l =>
    match parseNumber l with
    | some (n, []) => some n
    | _ => none

/-- JavaScript ToNumber on a value of this model; none models NaN.
Arrays and objects coerce through their string form; for the object and
nonempty-array shapes this program could only meet through corrupted
storage that is NaN, and the model uses NaN for every array. -/
def jsToNumber : JsonValue → Option Int
  | .null => some 0
  | .jsUndefined => none
  | .bool b => some (if b then 1 else 0)
  | .num n => some n
  | .str s => strToNumber s
  | .arr _ => none
  | .obj _ => none

/-- JavaScript greater-than with a number on the left, as the expression
chapterNumber > gameState.unlockedChapters evaluates (src/index.tsx line
170): the right operand is coerced to a number, and any comparison with
NaN is false. -/
def jsGreaterThan (a : Int) (b : JsonValue) : Bool :=
  match jsToNumber b with
  | some n => a > n
  | none => false

/-- Object spread update, modelling the expression that copies prev and
sets one property (src/index.tsx line 131).  Spreading a non-object
contributes no own enumerable properties, leaving only the set property;
in the program the spread value is always an object. -/
def spreadSet (g : JsonValue) (k : String) (v : JsonValue) : JsonValue :=
  match g with
  | .obj fs => .obj (insertPair fs k v)
  | _ => .obj [(k, v)]

/-- Top-level view of the App component (src/index.tsx line 56). -/
inductive View where
  | menu
  | chapters
  | game
deriving DecidableEq, Repr

/-- State of the App component together with its environment: the two
React states view and gameState, the activeChapter state, the persisted
storage content, the trace of saveGameState calls the save effect made
(most recent first), the count of playClickSound invocations, and the
chapter-select local tooltip state with its timer bookkeeping.  Timer ids
are allocated from nextTimer; armedTimer holds the id of the pending
tooltip hide timeout, none when no timeout is pending (cleared timeouts
never fire). -/
structure AppState where
  view : View
  gameState : JsonValue
  activeChapter : JsonValue
  store : Option String
  saves : List JsonValue
  clickCalls : Nat
  visibleTooltip : Option Nat
  armedTimer : Option Nat
  nextTimer : Nat
deriving Repr

/-- Model of playClickSound (src/index.tsx lines 104-117): a fire-and-
forget side effect recorded as a counter; it touches no other state. -/
def playClickSound (s : AppState) : AppState :=
  { s with clickCalls := s.clickCalls + 1 }

/-- Unmount cleanup of the ChapterSelect component (src/index.tsx lines
146-152): the pending tooltip timeout is cleared, and the component-local
tooltip state ceases to exist. -/
def clearChapterSelect (s : AppState) : AppState :=
  { s with visibleTooltip := none, armedTimer := none }

/-- View change with React unmount semantics: leaving the chapters view
unmounts ChapterSelect, running its cleanup. -/
def setView (s : AppState) (v : View) : AppState :=
  let s1 := { s with view := v }
  if s.view = View.chapters ∧ v ≠ View.chapters then clearChapterSelect s1 else s1

/-- Model of handleNavigation (src/index.tsx lines 119-122): click sound,
then view change. -/
def handleNavigation (s : AppState) (v : View) : AppState :=
  setView (playClickSound s) v

/-- Model of handleSilentNavigation (src/index.tsx lines 124-126): view
change only, no click sound. -/
def handleSilentNavigation (s : AppState) (v : View) : AppState :=
  setView s v

/-- Model of navigateToGame (src/index.tsx lines 128-133): click sound,
set activeChapter, update gameState by the spread that replaces
currentChapter, switch the view to game.  The save effect (src/index.tsx
lines 100-102) runs after the state commit: because the spread always
creates a fresh object, the effect runs unconditionally, calling
saveGameState exactly once with the updated state. -/
def navigateToGame (s : AppState) (chapter : JsonValue) : AppState :=
  let s1 := playClickSound s
  let g := spreadSet s1.gameState "currentChapter" chapter
  let s2 := { s1 with
    activeChapter := chapter
    gameState := g
    saves := g :: s1.saves
    store := saveGameState false g s1.store }
  setView s2 View.game

/-- Model of showTooltip (src/index.tsx lines 154-163): click sound,
clear any pending hide timeout, show the tooltip for the clicked index,
and arm a fresh 3000 ms hide timeout with a new timer id. -/
def showTooltip (s : AppState) (index : Nat) : AppState :=
  let s1 := playClickSound s
  { s1 with
    visibleTooltip := some index
    armedTimer := some s1.nextTimer
    nextTimer := s1.nextTimer + 1 }

/-- User and timer events the App component reacts to. -/
inductive Ev where
  | menuStart
  | menuLoad
  | chaptersBack
  | chapterClick (idx : Nat)
  | gameExit
  | tooltipFire (t : Nat)
deriving Repr

/-- One step of the App component.  Each user event is only available on
the view that renders its control; the ten chapter buttons carry indices
0 through 9 (src/index.tsx lines 168-187) and dispatch on the unlock gate
(line 175).  A tooltip hide timeout only fires while it is the pending
one: clearTimeout on unmount or in showTooltip prevents a cleared
timeout from ever firing. -/
def step (s : AppState) (e : Ev) : AppState :=
  match e with
  | .menuStart =>
    if s.view = View.menu then
      navigateToGame s (getProp s.gameState "currentChapter")
    else s
  | .menuLoad =>
    if s.view = View.menu then handleNavigation s View.chapters else s
  | .chaptersBack =>
    if s.view = View.chapters then handleNavigation s View.menu else s
  | .chapterClick idx =>
    if s.view = View.chapters ∧ idx < 10 then
      let chapterNumber : Int := (idx : Int) + 1
      if jsGreaterThan chapterNumber (getProp s.gameState "unlockedChapters") then
        showTooltip s idx
      else
        navigateToGame s (.num chapterNumber)
    else s
  | .gameExit =>
    if s.view = View.game then handleSilentNavigation s View.menu else s
  | .tooltipFire t =>
    if s.armedTimer = some t then
      { s with visibleTooltip := none, armedTimer := none }
    else s

/-- Initial state of the App component for a given storage content
(src/index.tsx lines 55-58): the view starts at the menu, gameState is
loaded from storage, activeChapter starts at the loaded currentChapter,
and the save effect runs once on mount with the loaded state. -/
def initApp (stored : Option String) : AppState :=
  let g := loadGameState stored
  { view := View.menu
    gameState := g
    activeChapter := getProp g "currentChapter"
    store := saveGameState false g stored
    saves := [g]
    clickCalls := 0
    visibleTooltip := none
    armedTimer := none
    nextTimer := 0 }

/-- Run a sequence of events from a state. -/
def run (s : AppState) : List Ev → AppState
  | [] => s
  | e :: es => run (step s e) es

/-! Helper lemmas about property lookup and the spread update. -/

lemma getFieldD_insertPair_self (fs : List (String × JsonValue)) (k : String) (v : JsonValue) :
    getFieldD (insertPair fs k v) k = v := by
  induction fs with
  | nil => simp [insertPair, getFieldD]
  | cons p rest ih =>
    obtain ⟨k0, v0⟩ := p
    by_cases h : k0 = k
    · subst h; simp [insertPair, getFieldD]
    · simp [insertPair, getFieldD, h, ih]

lemma getFieldD_insertPair_ne (fs : List (String × JsonValue)) (k k2 : String) (v : JsonValue)
    (h : k2 ≠ k) : getFieldD (insertPair fs k v) k2 = getFieldD fs k2 := by
  have h2 : ¬(k = k2) := fun hh => h hh.symm
  induction fs with
  | nil => simp [insertPair, getFieldD, h2]
  | cons p rest ih =>
    obtain ⟨k0, v0⟩ := p
    by_cases h0 : k0 = k
    · subst h0; simp [insertPair, getFieldD, h2]
    · by_cases h1 : k0 = k2
      · simp [insertPair, getFieldD, h0, h1, h]
      · simp [insertPair, getFieldD, h0, h1, ih]

lemma getProp_spreadSet_self (g : JsonValue) (k : String) (v : JsonValue) :
    getProp (spreadSet g k v) k = v := by
  cases g <;> simp [spreadSet, getProp, getFieldD, getFieldD_insertPair_self]

lemma getProp_spreadSet_ne (g : JsonValue) (k k2 : String) (v : JsonValue) (h : k2 ≠ k) :
    getProp (spreadSet g k v) k2 = getProp g k2 := by
  have h2 : ¬(k = k2) := fun hh => h hh.symm
  cases g <;>
    simp [spreadSet, getProp, getFieldD, h2, getFieldD_insertPair_ne _ _ _ _ h]

/-! Projection lemmas for the state-machine helpers. -/

@[simp] lemma setView_view (s : AppState) (v : View) : (setView s v).view = v := by
  simp only [setView, clearChapterSelect]
  split <;> rfl

@[simp] lemma setView_gameState (s : AppState) (v : View) :
    (setView s v).gameState = s.gameState := by
  simp only [setView, clearChapterSelect]
  split <;> rfl

@[simp] lemma setView_activeChapter (s : AppState) (v : View) :
    (setView s v).activeChapter = s.activeChapter := by
  simp only [setView, clearChapterSelect]
  split <;> rfl

@[simp] lemma setView_store (s : AppState) (v : View) : (setView s v).store = s.store := by
  simp only [setView, clearChapterSelect]
  split <;> rfl

@[simp] lemma setView_saves (s : AppState) (v : View) : (setView s v).saves = s.saves := by
  simp only [setView, clearChapterSelect]
  split <;> rfl

@[simp] lemma setView_clickCalls (s : AppState) (v : View) :
    (setView s v).clickCalls = s.clickCalls := by
  simp only [setView, clearChapterSelect]
  split <;> rfl

@[simp] lemma setView_nextTimer (s : AppState) (v : View) :
    (setView s v).nextTimer = s.nextTimer := by
  simp only [setView, clearChapterSelect]
  split <;> rfl

lemma setView_visibleTooltip_of_ne (s : AppState) (v : View) (h : s.view ≠ View.chapters) :
    (setView s v).visibleTooltip = s.visibleTooltip := by
  simp [setView, clearChapterSelect, h]

lemma setView_armedTimer_of_ne (s : AppState) (v : View) (h : s.view ≠ View.chapters) :
    (setView s v).armedTimer = s.armedTimer := by
  simp [setView, clearChapterSelect, h]

lemma setView_armedTimer_leaving (s : AppState) (v : View) (h : s.view = View.chapters)
    (hv : v ≠ View.chapters) : (setView s v).armedTimer = none := by
  simp [setView, clearChapterSelect, h, hv]

/-! Correctness of the decimal rendering against the number parser, used
for the save-load round trip. -/

lemma digitCh_isDigit (d : Nat) (h : d < 10) : isDigitCh (digitCh d) = true := by
  interval_cases d <;> decide

lemma digitVal_digitCh (d : Nat) (h : d < 10) : digitVal (digitCh d) = d := by
  interval_cases d <;> decide

lemma natToChars_of_lt (n : Nat) (h : n < 10) : natToChars n = [digitCh n] := by
  rw [natToChars, dif_pos h]

lemma natToChars_of_ge (n : Nat) (h : ¬n < 10) :
    natToChars n = natToChars (n / 10) ++ [digitCh (n % 10)] := by
  rw [natToChars, dif_neg h]

lemma natToChars_ne_nil (n : Nat) : natToChars n ≠ [] := by
  by_cases h : n < 10
  · rw [natToChars_of_lt n h]; simp
  · rw [natToChars_of_ge n h]; simp

lemma natToChars_head_digit (n : Nat) :
    ∀ c t, natToChars n = c :: t → isDigitCh c = true := by
  induction n using Nat.strong_induction_on with
  | _ n ih =>
    intro c t hct
    by_cases h : n < 10
    · rw [natToChars_of_lt n h] at hct
      cases hct
      exact digitCh_isDigit n h
    · rw [natToChars_of_ge n h] at hct
      rcases hd : natToChars (n / 10) with _ | ⟨c0, t0⟩
      · exact absurd hd (natToChars_ne_nil _)
      · rw [hd] at hct
        simp only [List.cons_append, List.cons.injEq] at hct
        rw [← hct.1]
        exact ih (n / 10) (Nat.div_lt_self (by omega) (by omega)) c0 t0 hd

lemma parseNatAux_stop (l : List Char) (acc : Nat)
    (h : ∀ c t, l = c :: t → isDigitCh c = false) : parseNatAux l acc = (acc, l) := by
  cases l with
  | nil => rfl
  | cons c t => simp [parseNatAux, h c t rfl]

lemma parseNatAux_append (n : Nat) : ∀ (rest : List Char) (acc : Nat),
    parseNatAux (natToChars n ++ rest) acc
      = parseNatAux rest (acc * 10 ^ (natToChars n).length + n) := by
  induction n using Nat.strong_induction_on with
  | _ n ih =>
    intro rest acc
    by_cases h : n < 10
    · rw [natToChars_of_lt n h]
      simp [parseNatAux, digitCh_isDigit n h, digitVal_digitCh n h]
    · rw [natToChars_of_ge n h, List.append_assoc,
        ih (n / 10) (Nat.div_lt_self (by omega) (by omega))]
      have h10 : n % 10 < 10 := Nat.mod_lt _ (by omega)
      simp only [List.cons_append, List.nil_append, parseNatAux,
        digitCh_isDigit _ h10, digitVal_digitCh _ h10, if_true,
        List.length_append, List.length_cons, List.length_nil]
      congr 1
      have hX : (0 : Nat) < 10 ^ (natToChars (n / 10)).length := Nat.pos_pow_of_pos _ (by omega)
      generalize (natToChars (n / 10)).length = L at *
      rw [pow_succ]
      have hY : acc * (10 ^ L * 10) = acc * 10 ^ L * 10 := by ring
      rw [hY]
      generalize acc * 10 ^ L = Y
      omega

lemma isDigitCh_bounds (c : Char) (h : isDigitCh c = true) : '0' ≤ c ∧ c ≤ '9' := by
  simpa [isDigitCh] using h

lemma digit_ne (c c2 : Char) (h : isDigitCh c = true)
    (h2 : c2 < '0' ∨ '9' < c2) : ¬(c = c2) := by
  obtain ⟨h0, h9⟩ := isDigitCh_bounds c h
  intro he
  subst he
  rcases h2 with h2 | h2
  · exact absurd h0 (not_le_of_lt h2)
  · exact absurd h9 (not_le_of_lt h2)

lemma digit_not_ws (c : Char) (h : isDigitCh c = true) : isWs c = false := by
  have hsp : ¬(c = ' ') := digit_ne c ' ' h (Or.inl (by decide))
  have hnl : ¬(c = '\n') := digit_ne c '\n' h (Or.inl (by decide))
  have hta : ¬(c = '\t') := digit_ne c '\t' h (Or.inl (by decide))
  have hcr : ¬(c = '\r') := digit_ne c '\r' h (Or.inl (by decide))
  simp [isWs, hsp, hnl, hta, hcr]

lemma parseNumber_natToChars (n : Nat) (rest : List Char)
    (h : ∀ c t, rest = c :: t → isDigitCh c = false) :
    parseNumber (natToChars n ++ rest) = some ((n : Int), rest) := by
  rcases hct : natToChars n with _ | ⟨c, t⟩
  · exact absurd hct (natToChars_ne_nil n)
  · have hc : isDigitCh c = true := natToChars_head_digit n c t hct
    have hcm : ¬(c = '-') := digit_ne c '-' hc (Or.inl (by decide))
    rw [List.cons_append]
    simp only [parseNumber]
    rw [if_neg hcm, if_pos hc]
    rw [← List.cons_append, ← hct, parseNatAux_append n rest 0]
    rw [parseNatAux_stop rest (0 * 10 ^ (natToChars n).length + n) h]
    simp

lemma skipWs_cons_of (c : Char) (h : isWs c = false) (l : List Char) :
    skipWs (c :: l) = c :: l := by
  simp [skipWs, h]

lemma parseValue_natToChars (fuel : Nat) (hfuel : 1 ≤ fuel) (n : Nat) (rest : List Char)
    (h : ∀ c t, rest = c :: t → isDigitCh c = false) :
    parseValue fuel (natToChars n ++ rest) = some (.num (n : Int), rest) := by
  obtain ⟨f, rfl⟩ : ∃ f, fuel = f + 1 := ⟨fuel - 1, by omega⟩
  rcases hct : natToChars n with _ | ⟨c, t⟩
  · exact absurd hct (natToChars_ne_nil n)
  · have hc : isDigitCh c = true := natToChars_head_digit n c t hct
    have hws : isWs c = false := digit_not_ws c hc
    have hbr : ¬(c = '\x7b') := digit_ne c '\x7b' hc (Or.inr (by decide))
    have hbk : ¬(c = '[') := digit_ne c '[' hc (Or.inr (by decide))
    have hqt : ¬(c = '"') := digit_ne c '"' hc (Or.inl (by decide))
    rw [List.cons_append]
    simp only [parseValue, skipWs_cons_of c hws]
    rw [if_neg hbr, if_neg hbk, if_neg hqt]
    rw [if_pos (show (isDigitCh c || decide (c = '-')) = true by simp [hc])]
    rw [← List.cons_append, ← hct, parseNumber_natToChars n rest h]

/-- Byte sequence JSON.stringify produces for a two-field game-state
record, spelled out for the round-trip proof. -/
def gsBytes (c u : Int) : List Char :=
  '\x7b' :: '"' :: ("currentChapter".data ++ '"' :: ':' ::
    (intToChars c ++ ',' :: '"' :: ("unlockedChapters".data ++ '"' :: ':' ::
      (intToChars u ++ ['\x7d']))))

lemma stringifyList_gs (c u : Int) :
    stringifyList (JsonValue.obj [("currentChapter", JsonValue.num c),
        ("unlockedChapters", JsonValue.num u)]) = gsBytes c u := by
  have h1 : escapeChars "currentChapter".data = "currentChapter".data := rfl
  have h2 : escapeChars "unlockedChapters".data = "unlockedChapters".data := rfl
  simp [stringifyList, stringifyObj, gsBytes, h1, h2]

lemma parseStringAux_plain (k : List Char)
    (hk : ∀ c ∈ k, ¬(c = '"') ∧ ¬(c = '\\')) (z : List Char) :
    parseStringAux (k ++ '"' :: z) = some (k, z) := by
  induction k with
  | nil => simp [parseStringAux]
  | cons c t ih =>
    have h1 : ¬(c = '"') := (hk c (by simp)).1
    have h2 : ¬(c = '\\') := (hk c (by simp)).2
    rw [List.cons_append]
    simp only [parseStringAux]
    rw [if_neg h1, if_neg h2, ih (fun c2 hc2 => hk c2 (by simp [hc2]))]

lemma parseValue_gsBytes (fuel : Nat) (hfuel : 4 ≤ fuel) (c u : Int)
    (hc : 1 ≤ c) (hu : 1 ≤ u) :
    parseValue fuel (gsBytes c u)
      = some (JsonValue.obj [("currentChapter", JsonValue.num c),
          ("unlockedChapters", JsonValue.num u)], []) := by
  obtain ⟨f, rfl⟩ : ∃ f, fuel = f + 4 := ⟨fuel - 4, by omega⟩
  have hic : intToChars c = natToChars c.toNat := by
    rw [intToChars, if_neg (by omega)]
  have hiu : intToChars u = natToChars u.toNat := by
    rw [intToChars, if_neg (by omega)]
  have hcnat : ((c.toNat : Nat) : Int) = c := Int.toNat_of_nonneg (by omega)
  have hunat : ((u.toNat : Nat) : Int) = u := Int.toNat_of_nonneg (by omega)
  have hkey1 : ∀ z : List Char,
      parseStringAux ("currentChapter".data ++ '"' :: z)
        = some ("currentChapter".data, z) :=
    fun z => parseStringAux_plain _ (by decide) z
  have hkey2 : ∀ z : List Char,
      parseStringAux ("unlockedChapters".data ++ '"' :: z)
        = some ("unlockedChapters".data, z) :=
    fun z => parseStringAux_plain _ (by decide) z
  simp only [gsBytes, hic, hiu]
  rw [show f + 4 = (f + 3) + 1 from rfl]
  rw [show parseValue ((f + 3) + 1)
      ('\x7b' :: '"' :: ("currentChapter".data ++ '"' :: ':' ::
        (natToChars c.toNat ++ ',' :: '"' :: ("unlockedChapters".data ++ '"' :: ':' ::
          (natToChars u.toNat ++ ['\x7d'])))))
    = parseMembers (f + 3)
        ('"' :: ("currentChapter".data ++ '"' :: ':' ::
          (natToChars c.toNat ++ ',' :: '"' :: ("unlockedChapters".data ++ '"' :: ':' ::
            (natToChars u.toNat ++ ['\x7d']))))) [] from rfl]
  rw [show f + 3 = (f + 2) + 1 from rfl]
  simp only [parseMembers, skipWs_cons_of '"' rfl, hkey1, skipWs_cons_of ':' rfl]
  rw [parseValue_natToChars (f + 2) (by omega) c.toNat
    (',' :: '"' :: ("unlockedChapters".data ++ '"' :: ':' :: (natToChars u.toNat ++ ['\x7d'])))
    (by intro cc tt hh; cases hh; decide)]
  simp only [insertPair, skipWs_cons_of ',' rfl, hcnat]
  simp only [skipWs_cons_of '"' rfl, hkey2, skipWs_cons_of ':' rfl]
  rw [parseValue_natToChars (f + 1) (by omega) u.toNat ['\x7d']
    (by intro cc tt hh; cases hh; decide)]
  simp only [insertPair, skipWs_cons_of '\x7d' rfl, hunat]
  rw [if_neg (by decide : ¬("currentChapter" = "unlockedChapters"))]

lemma jsonParse_gs (c u : Int) (hc : 1 ≤ c) (hu : 1 ≤ u) :
    jsonParse (jsStringify (JsonValue.obj [("currentChapter", JsonValue.num c),
        ("unlockedChapters", JsonValue.num u)]))
      = some (JsonValue.obj [("currentChapter", JsonValue.num c),
          ("unlockedChapters", JsonValue.num u)]) := by
  have hb : (jsStringify (JsonValue.obj [("currentChapter", JsonValue.num c),
      ("unlockedChapters", JsonValue.num u)])).data = gsBytes c u := by
    rw [jsStringify, stringifyList_gs]
  have hlen : 4 ≤ (gsBytes c u).length + 1 := by
    simp [gsBytes]
  simp only [jsonParse, hb]
  rw [parseValue_gsBytes ((gsBytes c u).length + 1) hlen c u hc hu]
  simp [skipWs]

lemma loadGameState_gs (c u : Int) (hc : 1 ≤ c) (hu : 1 ≤ u) :
    loadGameState (some (jsStringify (JsonValue.obj [("currentChapter", JsonValue.num c),
        ("unlockedChapters", JsonValue.num u)])))
      = JsonValue.obj [("currentChapter", JsonValue.num c),
          ("unlockedChapters", JsonValue.num u)] := by
  have hne : ¬(jsStringify (JsonValue.obj [("currentChapter", JsonValue.num c),
      ("unlockedChapters", JsonValue.num u)]) = "") := by
    intro hcontra
    have hdata := congrArg String.data hcontra
    rw [jsStringify, stringifyList_gs] at hdata
    simp [gsBytes] at hdata
  simp only [loadGameState, if_neg hne, jsonParse_gs c u hc hu]
  have hc0 : truthy (JsonValue.num c) = true := by
    simp [truthy]
    omega
  have hu0 : truthy (JsonValue.num u) = true := by
    simp [truthy]
    omega
  simp [getFieldD, hc0, hu0]

/-! Dispatch lemmas for a click on a chapter button. -/

lemma step_chapterClick_locked (s : AppState) (idx : Nat) (u : Int)
    (hview : s.view = View.chapters) (hidx : idx < 10)
    (hu : getProp s.gameState "unlockedChapters" = JsonValue.num u)
    (hlocked : u < (idx : Int) + 1) :
    step s (Ev.chapterClick idx) = showTooltip s idx := by
  have hcond : s.view = View.chapters ∧ idx < 10 := ⟨hview, hidx⟩
  have hgt : jsGreaterThan ((idx : Int) + 1) (getProp s.gameState "unlockedChapters") = true := by
    rw [hu]
    simp only [jsGreaterThan, jsToNumber, decide_eq_true_eq]
    omega
  simp only [step, if_pos hcond, hgt, if_true]

lemma step_chapterClick_unlocked (s : AppState) (idx : Nat) (u : Int)
    (hview : s.view = View.chapters) (hidx : idx < 10)
    (hu : getProp s.gameState "unlockedChapters" = JsonValue.num u)
    (hn : (idx : Int) + 1 ≤ u) :
    step s (Ev.chapterClick idx) = navigateToGame s (JsonValue.num ((idx : Int) + 1)) := by
  have hcond : s.view = View.chapters ∧ idx < 10 := ⟨hview, hidx⟩
  have hgt : jsGreaterThan ((idx : Int) + 1) (getProp s.gameState "unlockedChapters") = false := by
    rw [hu]
    simp only [jsGreaterThan, jsToNumber, decide_eq_false_iff_not]
    omega
  simp [step, if_pos hcond, hgt]

/-! Concrete states used by the witnesses. -/

/-- A state on the chapter-select screen with the default progress. -/
def chaptersState : AppState :=
  { view := View.chapters
    gameState := defaultGameState
    activeChapter := JsonValue.num 1
    store := none
    saves := []
    clickCalls := 0
    visibleTooltip := none
    armedTimer := none
    nextTimer := 0 }

/-- A state inside the game view for chapter 1 with the default progress. -/
def inGameState : AppState :=
  { view := View.game
    gameState := defaultGameState
    activeChapter := JsonValue.num 1
    store := some (jsStringify defaultGameState)
    saves := [defaultGameState]
    clickCalls := 1
    visibleTooltip := none
    armedTimer := none
    nextTimer := 0 }

/-! Claim theorems. -/

/-- Claim C3: the lock predicate equals the comparison with the unlocked
count, is false at the boundary, and agrees with the JavaScript comparison
the chapter-select render performs on a numeric unlockedChapters field.
Determinism and absence of side effects are intrinsic: isLocked is a pure
function of its two arguments. -/
theorem somnum_C3_unlock_gate (n u : Int) :
    isLocked n u = decide (n > u) ∧ isLocked u u = false
      ∧ jsGreaterThan n (JsonValue.num u) = isLocked n u := by
  refine ⟨rfl, ?_, rfl⟩
  simp [isLocked]

/-- Claim C8: when the storage write fails (quota exceeded, disabled
storage), saveGameState swallows the error and the persisted content is
the prior one.  The function is total and returns an Option String rather
than an exception, modelling that nothing escapes its catch block; it
neither receives nor returns the in-memory state, which is therefore
untouched. -/
theorem somnum_C8_save_failure_swallowed (state : JsonValue) (store : Option String) :
    saveGameState true state store = store := rfl

/-- Claim C1: for a storage value that is absent, is invalid JSON, or
parses to a record missing either required field, loadGameState returns
exactly the default state.  The function is total, modelling that every
exception on these paths is caught. -/
theorem somnum_C1_load_falls_back_to_default (stored : Option String)
    (h : stored = none
      ∨ ∃ raw, stored = some raw ∧
          (jsonParse raw = none
            ∨ ∃ fields, jsonParse raw = some (JsonValue.obj fields) ∧
                (getFieldD fields "currentChapter" = JsonValue.jsUndefined
                  ∨ getFieldD fields "unlockedChapters" = JsonValue.jsUndefined))) :
    loadGameState stored = defaultGameState := by
  rcases h with h | ⟨raw, rfl, h⟩
  · rw [h]; rfl
  · by_cases hraw : raw = ""
    · simp [loadGameState, hraw]
    · rcases h with h | ⟨fields, hparse, h⟩
      · simp [loadGameState, hraw, h]
      · rcases h with h | h <;>
          simp [loadGameState, hraw, hparse, h, truthy]

/-- Witness for claim C1 at a concrete invalid-JSON storage value. -/
theorem somnum_C1_witness :
    loadGameState (some "not json") = defaultGameState :=
  somnum_C1_load_falls_back_to_default (some "not json")
    (Or.inr ⟨"not json", rfl, Or.inl rfl⟩)

/-- Claim C7 counterexample: the claim says the truthiness check accepts a
stored record with a field equal to 0, returning it as-is; in fact 0 is
falsy in JavaScript, so such a record is rejected and loadGameState
returns the default state instead of the stored record. -/
theorem somnum_C7_counterexample :
    loadGameState (some "\x7b\"currentChapter\":0,\"unlockedChapters\":1\x7d")
        = defaultGameState
      ∧ loadGameState (some "\x7b\"currentChapter\":0,\"unlockedChapters\":1\x7d")
        ≠ JsonValue.obj [("currentChapter", JsonValue.num 0),
            ("unlockedChapters", JsonValue.num 1)] := by
  refine ⟨rfl, ?_⟩
  intro h
  rw [show loadGameState (some "\x7b\"currentChapter\":0,\"unlockedChapters\":1\x7d")
      = defaultGameState from rfl] at h
  simp [defaultGameState] at h

/-- Claim C7 as amended: the validation checks only truthiness of the two
fields, so a stored record with a field equal to -1 (truthy) is accepted
and returned as-is, while a record with a field equal to 0 (falsy) is
replaced by the default state. -/
theorem somnum_C7_truthiness_only :
    loadGameState (some "\x7b\"currentChapter\":-1,\"unlockedChapters\":1\x7d")
        = JsonValue.obj [("currentChapter", JsonValue.num (-1)),
            ("unlockedChapters", JsonValue.num 1)]
      ∧ loadGameState (some "\x7b\"currentChapter\":1,\"unlockedChapters\":-1\x7d")
        = JsonValue.obj [("currentChapter", JsonValue.num 1),
            ("unlockedChapters", JsonValue.num (-1))]
      ∧ loadGameState (some "\x7b\"currentChapter\":0,\"unlockedChapters\":1\x7d")
        = defaultGameState
      ∧ loadGameState (some "\x7b\"currentChapter\":1,\"unlockedChapters\":0\x7d")
        = defaultGameState :=
  ⟨rfl, rfl, rfl, rfl⟩

/-- Claim C2: selecting an unlocked chapter from the chapter-select screen
moves the view to the game, sets currentChapter in the game state and
activeChapter to the selected number, and triggers exactly one
unconditional save of the updated state (the saves trace grows by exactly
that state, and storage holds its serialization). -/
theorem somnum_C2_select_unlocked_chapter (s : AppState) (idx : Nat) (u : Int)
    (hview : s.view = View.chapters) (hidx : idx < 10)
    (hu : getProp s.gameState "unlockedChapters" = JsonValue.num u)
    (hn : (idx : Int) + 1 ≤ u) :
    (step s (Ev.chapterClick idx)).view = View.game
      ∧ getProp (step s (Ev.chapterClick idx)).gameState "currentChapter"
          = JsonValue.num ((idx : Int) + 1)
      ∧ (step s (Ev.chapterClick idx)).activeChapter = JsonValue.num ((idx : Int) + 1)
      ∧ (step s (Ev.chapterClick idx)).saves
          = (step s (Ev.chapterClick idx)).gameState :: s.saves
      ∧ (step s (Ev.chapterClick idx)).store
          = some (jsStringify (step s (Ev.chapterClick idx)).gameState) := by
  rw [step_chapterClick_unlocked s idx u hview hidx hu hn]
  refine ⟨by simp [navigateToGame], ?_, ?_, ?_, ?_⟩
  · simp [navigateToGame, playClickSound, getProp_spreadSet_self]
  · simp [navigateToGame, playClickSound]
  · simp [navigateToGame, playClickSound]
  · simp [navigateToGame, playClickSound, saveGameState]

/-- Witness for claim C2: selecting chapter 1 (index 0) on the default
progress record. -/
theorem somnum_C2_witness :
    chaptersState.view = View.chapters
      ∧ (step chaptersState (Ev.chapterClick 0)).view = View.game
      ∧ (step chaptersState (Ev.chapterClick 0)).activeChapter = JsonValue.num 1 :=
  ⟨rfl,
    (somnum_C2_select_unlocked_chapter chaptersState 0 1 rfl (by decide) rfl (by decide)).1,
    (somnum_C2_select_unlocked_chapter chaptersState 0 1 rfl (by decide) rfl
      (by decide)).2.2.1⟩

/-- Claim C4: clicking a locked chapter leaves the game state, the view,
the active chapter, the save trace and the storage untouched; it only sets
the tooltip state to that chapter index and arms its hide timer. -/
theorem somnum_C4_locked_click_only_tooltip (s : AppState) (idx : Nat) (u : Int)
    (hview : s.view = View.chapters) (hidx : idx < 10)
    (hu : getProp s.gameState "unlockedChapters" = JsonValue.num u)
    (hlocked : u < (idx : Int) + 1) :
    (step s (Ev.chapterClick idx)).gameState = s.gameState
      ∧ (step s (Ev.chapterClick idx)).view = View.chapters
      ∧ (step s (Ev.chapterClick idx)).activeChapter = s.activeChapter
      ∧ (step s (Ev.chapterClick idx)).saves = s.saves
      ∧ (step s (Ev.chapterClick idx)).store = s.store
      ∧ (step s (Ev.chapterClick idx)).visibleTooltip = some idx
      ∧ (step s (Ev.chapterClick idx)).armedTimer = some s.nextTimer := by
  rw [step_chapterClick_locked s idx u hview hidx hu hlocked]
  refine ⟨rfl, ?_, rfl, rfl, rfl, rfl, rfl⟩
  simp [showTooltip, playClickSound, hview]

/-- Witness for claim C4: clicking chapter 3 (index 2) while only chapter
1 is unlocked. -/
theorem somnum_C4_witness :
    chaptersState.view = View.chapters
      ∧ (step chaptersState (Ev.chapterClick 2)).view = View.chapters
      ∧ (step chaptersState (Ev.chapterClick 2)).gameState = chaptersState.gameState
      ∧ (step chaptersState (Ev.chapterClick 2)).visibleTooltip = some 2 :=
  ⟨rfl,
    (somnum_C4_locked_click_only_tooltip chaptersState 2 1 rfl (by decide) rfl
      (by decide)).2.1,
    (somnum_C4_locked_click_only_tooltip chaptersState 2 1 rfl (by decide) rfl
      (by decide)).1,
    (somnum_C4_locked_click_only_tooltip chaptersState 2 1 rfl (by decide) rfl
      (by decide)).2.2.2.2.2.1⟩

/-- Claim C5: no step of the program changes the unlockedChapters field of
the game state, and from the default state (absent storage) it remains 1
after every event sequence. -/
theorem somnum_C5_unlocked_chapters_never_change :
    (∀ (s : AppState) (e : Ev),
        getProp (step s e).gameState "unlockedChapters"
          = getProp s.gameState "unlockedChapters")
      ∧ ∀ evs : List Ev,
          getProp (run (initApp none) evs).gameState "unlockedChapters"
            = JsonValue.num 1 := by
  have hnav : ∀ (s : AppState) (ch : JsonValue),
      getProp (navigateToGame s ch).gameState "unlockedChapters"
        = getProp s.gameState "unlockedChapters" := by
    intro s ch
    simp only [navigateToGame, setView_gameState, playClickSound]
    exact getProp_spreadSet_ne _ _ _ _ (by decide)
  have hstep : ∀ (s : AppState) (e : Ev),
      getProp (step s e).gameState "unlockedChapters"
        = getProp s.gameState "unlockedChapters" := by
    intro s e
    cases e with
    | menuStart =>
      by_cases hv : s.view = View.menu
      · simp only [step, if_pos hv]; exact hnav _ _
      · simp only [step, if_neg hv]
    | menuLoad =>
      by_cases hv : s.view = View.menu
      · simp [step, if_pos hv, handleNavigation, playClickSound]
      · simp only [step, if_neg hv]
    | chaptersBack =>
      by_cases hv : s.view = View.chapters
      · simp [step, if_pos hv, handleNavigation, playClickSound]
      · simp only [step, if_neg hv]
    | chapterClick idx =>
      by_cases hc : s.view = View.chapters ∧ idx < 10
      · by_cases hl : jsGreaterThan ((idx : Int) + 1)
            (getProp s.gameState "unlockedChapters") = true
        · simp [step, if_pos hc, hl, showTooltip, playClickSound]
        · rw [Bool.not_eq_true] at hl
          simp only [step, if_pos hc, hl]
          simp only [Bool.false_eq_true, if_false]
          exact hnav _ _
      · simp only [step, if_neg hc]
    | gameExit =>
      by_cases hv : s.view = View.game
      · simp [step, if_pos hv, handleSilentNavigation]
      · simp only [step, if_neg hv]
    | tooltipFire t =>
      by_cases ht : s.armedTimer = some t
      · simp [step, if_pos ht]
      · simp only [step, if_neg ht]
  have hrun : ∀ (evs : List Ev) (s : AppState),
      getProp (run s evs).gameState "unlockedChapters"
        = getProp s.gameState "unlockedChapters" := by
    intro evs
    induction evs with
    | nil => intro s; rfl
    | cons e es ih =>
      intro s
      simp only [run]
      rw [ih, hstep]
  exact ⟨hstep, fun evs => by rw [hrun]; rfl⟩

/-- Claim C10: exiting the game via the panel exit button takes the
silent navigation path: the view returns to the menu, no click sound
plays, the game state, active chapter, save trace and storage are
untouched, and a subsequent start action re-enters the game with the same
chapter. -/
theorem somnum_C10_silent_exit_to_menu (s : AppState) (n : Int)
    (hview : s.view = View.game)
    (hcc : getProp s.gameState "currentChapter" = JsonValue.num n)
    (hac : s.activeChapter = JsonValue.num n) :
    (step s Ev.gameExit).view = View.menu
      ∧ (step s Ev.gameExit).clickCalls = s.clickCalls
      ∧ (step s Ev.gameExit).gameState = s.gameState
      ∧ (step s Ev.gameExit).activeChapter = JsonValue.num n
      ∧ (step s Ev.gameExit).saves = s.saves
      ∧ (step s Ev.gameExit).store = s.store
      ∧ (step (step s Ev.gameExit) Ev.menuStart).view = View.game
      ∧ (step (step s Ev.gameExit) Ev.menuStart).activeChapter = JsonValue.num n := by
  have hexit : step s Ev.gameExit = handleSilentNavigation s View.menu := by
    simp only [step, if_pos hview]
  rw [hexit]
  have hmenu : (handleSilentNavigation s View.menu).view = View.menu := by
    simp [handleSilentNavigation]
  refine ⟨hmenu, ?_, ?_, ?_, ?_, ?_, ?_, ?_⟩
  · simp [handleSilentNavigation]
  · simp [handleSilentNavigation]
  · simp [handleSilentNavigation, hac]
  · simp [handleSilentNavigation]
  · simp [handleSilentNavigation]
  · simp only [step, if_pos hmenu]
    simp [navigateToGame]
  · simp only [step, if_pos hmenu]
    have : getProp (handleSilentNavigation s View.menu).gameState "currentChapter"
        = JsonValue.num n := by
      simp [handleSilentNavigation, hcc]
    rw [this]
    simp [navigateToGame, playClickSound]

/-- Witness for claim C10: exiting chapter 1 and starting again. -/
theorem somnum_C10_witness :
    inGameState.view = View.game
      ∧ (step inGameState Ev.gameExit).view = View.menu
      ∧ (step inGameState Ev.gameExit).clickCalls = inGameState.clickCalls
      ∧ (step (step inGameState Ev.gameExit) Ev.menuStart).activeChapter
          = JsonValue.num 1 :=
  ⟨rfl,
    (somnum_C10_silent_exit_to_menu inGameState 1 rfl rfl rfl).1,
    (somnum_C10_silent_exit_to_menu inGameState 1 rfl rfl rfl).2.1,
    (somnum_C10_silent_exit_to_menu inGameState 1 rfl rfl rfl).2.2.2.2.2.2.2⟩

/-- Claim C9: after showing tooltip A and then tooltip B (two locked
clicks), the pending timer is the one armed by B; the timer armed by A is
cancelled, so its firing (or that of any timer other than the pending one)
changes nothing; only B is visible, and firing the pending timer clears
the tooltip; navigating away from chapter select cancels the pending
timer. -/
theorem somnum_C9_tooltip_timer_discipline (s : AppState) (a b : Nat) (u : Int)
    (hview : s.view = View.chapters) (ha : a < 10) (hb : b < 10)
    (hu : getProp s.gameState "unlockedChapters" = JsonValue.num u)
    (hla : u < (a : Int) + 1) (hlb : u < (b : Int) + 1) :
    (step s (Ev.chapterClick a)).armedTimer = some s.nextTimer
      ∧ (step (step s (Ev.chapterClick a)) (Ev.chapterClick b)).armedTimer
          = some (s.nextTimer + 1)
      ∧ (step (step s (Ev.chapterClick a)) (Ev.chapterClick b)).visibleTooltip = some b
      ∧ step (step (step s (Ev.chapterClick a)) (Ev.chapterClick b))
            (Ev.tooltipFire s.nextTimer)
          = step (step s (Ev.chapterClick a)) (Ev.chapterClick b)
      ∧ (∀ t : Nat, t ≠ s.nextTimer + 1 →
          step (step (step s (Ev.chapterClick a)) (Ev.chapterClick b)) (Ev.tooltipFire t)
            = step (step s (Ev.chapterClick a)) (Ev.chapterClick b))
      ∧ (step (step (step s (Ev.chapterClick a)) (Ev.chapterClick b))
            (Ev.tooltipFire (s.nextTimer + 1))).visibleTooltip = none
      ∧ (step (step (step s (Ev.chapterClick a)) (Ev.chapterClick b))
            (Ev.tooltipFire (s.nextTimer + 1))).armedTimer = none
      ∧ (step (step (step s (Ev.chapterClick a)) (Ev.chapterClick b))
            Ev.chaptersBack).armedTimer = none := by
  have h1 : step s (Ev.chapterClick a) = showTooltip s a :=
    step_chapterClick_locked s a u hview ha hu hla
  have h1view : (showTooltip s a).view = View.chapters := by
    simp [showTooltip, playClickSound, hview]
  have h1gs : getProp (showTooltip s a).gameState "unlockedChapters" = JsonValue.num u := by
    simp [showTooltip, playClickSound, hu]
  have h2 : step (showTooltip s a) (Ev.chapterClick b) = showTooltip (showTooltip s a) b :=
    step_chapterClick_locked (showTooltip s a) b u h1view hb h1gs hlb
  rw [h1, h2]
  have harm : (showTooltip (showTooltip s a) b).armedTimer = some (s.nextTimer + 1) := by
    simp [showTooltip, playClickSound]
  refine ⟨by simp [showTooltip, playClickSound], harm,
    by simp [showTooltip, playClickSound], ?_, ?_, ?_, ?_, ?_⟩
  · simp only [step, harm]
    have : ¬(some (s.nextTimer + 1) = some s.nextTimer) := by simp
    rw [if_neg this]
  · intro t ht
    simp only [step, harm]
    have : ¬(some (s.nextTimer + 1) = some t) := by
      simp only [Option.some.injEq]
      omega
    rw [if_neg this]
  · simp [step, harm]
  · simp [step, harm]
  · have hv2 : (showTooltip (showTooltip s a) b).view = View.chapters := by
      simp [showTooltip, playClickSound, hview]
    simp only [step, if_pos hv2, handleNavigation]
    apply setView_armedTimer_leaving
    · simp [playClickSound, hv2]
    · simp

/-- Witness for claim C9: two locked clicks (chapters 2 and 3) on the
default progress record, timers 0 and 1. -/
theorem somnum_C9_witness :
    (step chaptersState (Ev.chapterClick 1)).armedTimer = some 0
      ∧ (step (step chaptersState (Ev.chapterClick 1)) (Ev.chapterClick 2)).visibleTooltip
          = some 2
      ∧ step (step (step chaptersState (Ev.chapterClick 1)) (Ev.chapterClick 2))
            (Ev.tooltipFire 0)
          = step (step chaptersState (Ev.chapterClick 1)) (Ev.chapterClick 2) :=
  ⟨(somnum_C9_tooltip_timer_discipline chaptersState 1 2 1 rfl (by decide) (by decide) rfl
      (by decide) (by decide)).1,
    (somnum_C9_tooltip_timer_discipline chaptersState 1 2 1 rfl (by decide) (by decide) rfl
      (by decide) (by decide)).2.2.1,
    (somnum_C9_tooltip_timer_discipline chaptersState 1 2 1 rfl (by decide) (by decide) rfl
      (by decide) (by decide)).2.2.2.1⟩

/-- Claim C6: for a game-state record (two integer fields, each at least
1 as the data model requires), loading the content a prior saveGameState
wrote returns that record exactly, and saving the loaded result writes
byte-identical content back, whatever was in storage before. -/
theorem somnum_C6_save_load_roundtrip (c u : Int) (store : Option String)
    (hc : 1 ≤ c) (hu : 1 ≤ u) :
    loadGameState (some (jsStringify (JsonValue.obj [("currentChapter", JsonValue.num c),
        ("unlockedChapters", JsonValue.num u)])))
      = JsonValue.obj [("currentChapter", JsonValue.num c),
          ("unlockedChapters", JsonValue.num u)]
    ∧ saveGameState false
        (loadGameState (some (jsStringify (JsonValue.obj
          [("currentChapter", JsonValue.num c), ("unlockedChapters", JsonValue.num u)]))))
        store
      = some (jsStringify (JsonValue.obj [("currentChapter", JsonValue.num c),
          ("unlockedChapters", JsonValue.num u)])) := by
  have hload := loadGameState_gs c u hc hu
  exact ⟨hload, by rw [hload]; rfl⟩

/-- Witness for claim C6 at the default state values. -/
theorem somnum_C6_witness :
    (1 : Int) ≤ 1
      ∧ loadGameState (some (jsStringify (JsonValue.obj
          [("currentChapter", JsonValue.num 1), ("unlockedChapters", JsonValue.num 1)])))
        = JsonValue.obj [("currentChapter", JsonValue.num 1),
            ("unlockedChapters", JsonValue.num 1)] :=
  ⟨le_refl 1, (somnum_C6_save_load_roundtrip 1 1 none (by decide) (by decide)).1⟩

end Somnum
